import Mathlib

/-!
# Verification of the netquery-insight-chat streaming core

Shallow embedding of the repository's streaming core:

* the SSE transport read loop of `queryAgent` (src/services/api.js):
  incremental line splitting with a retained partial-line buffer, the
  `data: ` frame filter, JSON parsing (abstracted as a parameter
  `parse`, since `JSON.parse` is a platform primitive), and early
  return on a terminal `done`/`error` event;
* the conversation state machine of `useChat` (src/hooks/useChat.js):
  the `switch (event.type)` applied to the message list, the session
  ref, and the overall loading flag;
* the chart-suitability logic of the `DataVisualization` component
  (aggregation heuristics and `findSuitableColumn` resolution).

Byte streams are modelled at the character level (`List Char`): the
source decodes with `TextDecoder(..., {stream: true})`, which
reassembles multi-byte code points split across chunk boundaries, so
every byte-level cut of the stream is observationally a character-level
cut.  JS objects are modelled as records with `Option` fields where the
source may leave a field `undefined`/`null`; JS numbers appearing in
result cells are modelled as integers (the claims under study only
inspect `typeof` and equality of cells).
-/

/-- The whitespace characters removed by JavaScript `String.prototype.trim`
(ASCII portion; the payloads at issue are JSON text). -/
def jsWhitespace (c : Char) : Bool :=
  c = ' ' || c = '\t' || c = '\n' || c = '\r' || c = '\x0b' || c = '\x0c'

/-- JavaScript `s.trim()` on a character list: strip whitespace at both ends. -/
def jsTrim (l : List Char) : List Char :=
  ((l.dropWhile jsWhitespace).reverse.dropWhile jsWhitespace).reverse

/-- A character list free of line feeds (a single SSE line). -/
def noNl (l : List Char) : Prop := '\n' ∉ l

instance (l : List Char) : Decidable (noNl l) := by
  unfold noNl; infer_instance

/-- Containment of `sub` as a contiguous sublist. -/
def listContains (sub : List Char) : List Char → Bool
  | [] => sub.isEmpty
  | c :: cs => sub.isPrefixOf (c :: cs) || listContains sub cs

/-- JavaScript `s.includes(sub)` (substring containment). -/
def strIncludes (s sub : String) : Bool :=
  listContains sub.toList s.toList

/-- JavaScript `s.toLowerCase()` (ASCII range, which covers the column
names and error texts at issue), written over the character list so
that it reduces in the kernel. -/
def jsToLower (s : String) : String :=
  String.mk (s.toList.map Char.toLower)

/-- A JS cell value as observed by the visualization heuristics: a string,
a number, `undefined` (absent property), or any other runtime value. -/
inductive CellValue where
  | str (s : String)
  | num (n : Int)
  | undefinedVal
  | other
deriving DecidableEq

/-- A result row: a JS object, i.e. an ordered association list of
property names to values (JSON object keys are unique). -/
def Row : Type := List (String × CellValue)

instance : DecidableEq Row := by unfold Row; infer_instance

/-- JS property read `row[k]`: the value at key `k`, `undefined` if absent. -/
def rowGet (row : Row) (k : String) : CellValue :=
  (row.lookup k).getD .undefinedVal

/-- JS `row.hasOwnProperty(k)`. -/
def rowHasKey (row : Row) (k : String) : Bool :=
  row.any (fun p => p.1 = k)

/-- `display_info` payload of a `data` event (§3 of the spec). -/
structure DisplayInfo where
  initial_display : Option Nat
  total_in_dataset : Option Nat
deriving DecidableEq

/-- One table entry of a schema overview payload. -/
structure TableInfo where
  name : String
  description : Option String
deriving DecidableEq

/-- `schema_overview` payload threaded through visualization/guidance events. -/
structure SchemaOverview where
  tables : List TableInfo
  suggested_queries : List String
deriving DecidableEq

/-- `config` of a visualization descriptor. -/
structure VizConfig where
  x_column : Option String
  y_column : Option String
  reason : Option String
deriving DecidableEq

/-- A visualization descriptor `{type, title, config, data?}`. -/
structure Viz where
  type : String
  title : String
  config : VizConfig
  data : Option (List Row)
deriving DecidableEq

/-- A parsed stream event: a JS object with a `type` discriminator and
whichever payload fields the server chose to send (absent ones `none`). -/
structure StreamEvent where
  type : String
  session_id : Option String := none
  explanation : Option String := none
  sql : Option String := none
  query_id : Option String := none
  results : Option (List Row) := none
  display_info : Option DisplayInfo := none
  analysis : Option String := none
  visualization : Option Viz := none
  schema_overview : Option SchemaOverview := none
  suggested_queries : Option (List String) := none
  answer : Option String := none
  message : Option String := none
deriving DecidableEq

/-- The transport stops after a terminal event
(`event.type === 'done' || event.type === 'error'`). -/
def isTerminal (e : StreamEvent) : Bool :=
  e.type = "done" || e.type = "error"

/-! ## Transport layer (`queryAgent` read loop, src/services/api.js)

The loop keeps a string `buffer`; per chunk it appends the decoded
chunk, splits on `'\n'`, pops the last (partial) line back into the
buffer, and processes each complete line: lines starting with
`"data: "` have the prefix removed; if the remainder is non-blank it is
JSON-parsed (failure is logged and skipped) and delivered to `onEvent`;
after a terminal event the function returns. -/

/-- JS `s.split('\n')` on a character list.  Never returns `[]`;
`splitNl "" = [""]`, a trailing `'\n'` yields a trailing `""`. -/
def splitNl : List Char → List (List Char)
  | [] => [[]]
  | c :: cs =>
    if c = '\n' then [] :: splitNl cs
    else
      match splitNl cs with
      | [] => [[c]]
      | l :: ls => (c :: l) :: ls

/-- The six characters of the SSE `data: ` prefix. -/
def dataPrefix : List Char := ['d', 'a', 't', 'a', ':', ' ']

/-- Processing of one complete line: `line.startsWith('data: ')`, strip the
prefix (`line.slice(6)`), require a non-blank remainder (`data.trim()`),
then attempt the JSON parse `parse`; any failure yields no event. -/
def procLine (parse : List Char → Option StreamEvent) (line : List Char) :
    Option StreamEvent :=
  if dataPrefix.isPrefixOf line then
    let data := line.drop 6
    if jsTrim data ≠ [] then parse data else none
  else none

/-- Processing of the complete lines of one chunk, in order: collects the
events delivered to `onEvent`; the `Bool` records whether a terminal
event caused the enclosing function to return (discarding later lines). -/
def procLines (parse : List Char → Option StreamEvent) :
    List (List Char) → List StreamEvent × Bool
  | [] => ([], false)
  | l :: rest =>
    match procLine parse l with
    | none => procLines parse rest
    | some e =>
      if isTerminal e then ([e], true)
      else
        let (es, t) := procLines parse rest
        (e :: es, t)

/-- The `while (true)` read loop of `queryAgent`: one iteration per read
chunk; `buf` is the retained partial trailing line.  When the reader
reports `done` (no chunks left) the loop breaks, discarding `buf`. -/
def readLoop (parse : List Char → Option StreamEvent) :
    List (List Char) → List Char → List StreamEvent
  | [], _ => []
  | c :: rest, buf =>
    let s := buf ++ c
    let parts := splitNl s
    let (es, term) := procLines parse parts.dropLast
    if term then es else es ++ readLoop parse rest (parts.getLastD [])

/-- Concatenation of a list of read chunks (the raw character stream). -/
def chunksJoin (chunks : List (List Char)) : List Char := chunks.flatten

/-- The wire form of one SSE frame for payload line `j`:
`"data: " ++ j ++ "\n"`. -/
def frameText (j : List Char) : List Char := dataPrefix ++ j ++ ['\n']

/-- The full byte stream of a list of frame payload lines. -/
def framesStream (js : List (List Char)) : List Char :=
  (js.map frameText).flatten

/-! ## Conversation state machine (`useChat`, src/hooks/useChat.js)

The hook owns `messages` (the ordered chat list), `loading` (the
overall submission lock) and `sessionIdRef` (the session slot).  The
stream callback dispatches on `event.type` and rewrites the message
list with `prev.map(msg => msg.id === agentMessageId ? {...} : msg)`. -/

/-- The four per-category loading flags of an agent message. -/
structure LoadingStates where
  sql : Bool
  data : Bool
  analysis : Bool
  visualization : Bool
deriving DecidableEq

/-- One chat message.  Fields the source adds only later
(`sql_query`, `user_question`) or may assign `undefined` to are
`Option`s with `none` for absent/undefined/null; `analysis_explanation`
is an `Option String` because the legacy `analysis` branch assigns the
raw (possibly absent) `event.explanation` while the initial value is
the present empty string. -/
structure ChatMessage where
  id : Nat
  content : String
  sql_explanation : Option String
  analysis_explanation : Option String
  results : Option (List Row)
  visualization : Option Viz
  display_info : Option DisplayInfo
  query_id : Option String
  database : String
  suggestedQueries : Option (List String)
  schemaOverview : Option SchemaOverview
  timestamp : String
  isUser : Bool
  isLoading : Bool
  isError : Bool
  loadingStates : LoadingStates
  sql_query : Option String
  user_question : Option String
deriving DecidableEq

/-- The hook state visible to the stream callback: the message list,
the overall `loading` flag, and `sessionIdRef.current`. -/
structure ChatState where
  messages : List ChatMessage
  loading : Bool
  sessionId : Option String
deriving DecidableEq

/-- `getUserFriendlyError` (src/utils/errorMessages.js): classify a raw
error message into a fixed diplomatic text via substring tests on the
lowercased message, with context-specific fallbacks. -/
def getUserFriendlyError (errorMessage : String) (context : String) : String :=
  let lowerMessage := jsToLower errorMessage
  if strIncludes lowerMessage "fetch" || strIncludes lowerMessage "network" ||
      strIncludes lowerMessage "connection" ||
      strIncludes errorMessage "Failed to fetch" then
    "We're having trouble connecting to the server. Please check your connection and try again."
  else if strIncludes lowerMessage "timeout" || strIncludes lowerMessage "timed out" then
    "The request is taking longer than expected. Please try again."
  else if strIncludes lowerMessage "500" || strIncludes lowerMessage "502" ||
      strIncludes lowerMessage "503" || strIncludes lowerMessage "server error" then
    "Our server encountered an issue. Please try again in a moment."
  else if strIncludes lowerMessage "401" || strIncludes lowerMessage "403" ||
      strIncludes lowerMessage "unauthorized" || strIncludes lowerMessage "forbidden" then
    "You don't have permission to access this resource. Please contact support if this persists."
  else if strIncludes lowerMessage "404" || strIncludes lowerMessage "not found" then
    "The requested resource couldn't be found. Please try again."
  else if strIncludes lowerMessage "parse" || strIncludes lowerMessage "json" ||
      strIncludes lowerMessage "unexpected token" then
    "We received an unexpected response from the server. Please try again."
  else if strIncludes lowerMessage "sql" || strIncludes lowerMessage "query" ||
      strIncludes lowerMessage "database" then
    "We encountered an issue processing your query. Please try rephrasing your question."
  else if context = "schema" || strIncludes lowerMessage "schema" then
    "We're having trouble loading the database structure. Please refresh the page."
  else if context = "streaming" || strIncludes lowerMessage "stream" then
    "There was an issue with the real-time connection. Please try your query again."
  else if context = "feedback" then
    "We couldn't submit your feedback at this time. Please try again later."
  else
    "Something unexpected happened. Please try again, and if the issue persists, contact support."

/-- The raw message the `error` branch hands to `getUserFriendlyError`:
`event.message || event`, then `error?.message || error?.toString()` —
a truthy `message` string passes through, anything else stringifies the
event object. -/
def errorEventMessage (e : StreamEvent) : String :=
  match e.message with
  | some m => if m ≠ "" then m else "[object Object]"
  | none => "[object Object]"

/-- `prev.map(msg => msg.id === agentMessageId ? f(msg) : msg)` —
the update pattern every message-touching branch uses. -/
def updMsg (agentMessageId : Nat) (f : ChatMessage → ChatMessage)
    (msgs : List ChatMessage) : List ChatMessage :=
  msgs.map fun msg => if msg.id = agentMessageId then f msg else msg

/-- JS truthiness of an optional string (`undefined`, `null` and `""`
are falsy). -/
def jsStrTruthy : Option String → Bool
  | none => false
  | some s => s ≠ ""

/-- `event.analysis || ''`: the string if truthy, else `''`. -/
def jsOrEmpty : Option String → String
  | none => ""
  | some s => s

/-- One transition of the stream callback in `sendMessage`
(src/hooks/useChat.js lines 56–213): the `switch (event.type)` over the
hook state.  `agentMessageId` and `query` are the values the callback
closes over. -/
def applyEvent (agentMessageId : Nat) (query : String)
    (st : ChatState) (e : StreamEvent) : ChatState :=
  if e.type = "session" then
    -- if (event.session_id) sessionIdRef.current = event.session_id
    if jsStrTruthy e.session_id then { st with sessionId := e.session_id }
    else st
  else if e.type = "sql" then
    { st with messages := updMsg agentMessageId (fun msg =>
        { msg with
          sql_explanation := e.explanation
          sql_query := e.sql
          query_id := e.query_id
          user_question := some query
          loadingStates := { msg.loadingStates with sql := true } }) st.messages }
  else if e.type = "data" then
    { st with messages := updMsg agentMessageId (fun msg =>
        { msg with
          results := e.results
          display_info := e.display_info
          loadingStates := { msg.loadingStates with data := true } }) st.messages }
  else if e.type = "interpretation" then
    { st with messages := updMsg agentMessageId (fun msg =>
        { msg with
          analysis_explanation := some (jsOrEmpty e.analysis)
          visualization := e.visualization
          schemaOverview := e.schema_overview
          suggestedQueries := e.suggested_queries
          loadingStates := { msg.loadingStates with
            analysis := true, visualization := true } }) st.messages }
  else if e.type = "analysis" then
    { st with messages := updMsg agentMessageId (fun msg =>
        { msg with
          analysis_explanation := e.explanation
          loadingStates := { msg.loadingStates with analysis := true } }) st.messages }
  else if e.type = "visualization" then
    { st with messages := updMsg agentMessageId (fun msg =>
        { msg with
          visualization := e.visualization
          schemaOverview := e.schema_overview
          suggestedQueries := e.suggested_queries
          loadingStates := { msg.loadingStates with visualization := true } }) st.messages }
  else if e.type = "general_answer" then
    { st with messages := updMsg agentMessageId (fun msg =>
        { msg with
          content := jsOrEmpty e.answer
          query_id := e.query_id
          isLoading := false
          loadingStates := ⟨true, true, true, true⟩ }) st.messages }
  else if e.type = "guidance" then
    { st with messages := updMsg agentMessageId (fun msg =>
        { msg with
          content := jsOrEmpty e.message
          schemaOverview := e.schema_overview
          suggestedQueries := e.suggested_queries
          isLoading := false
          loadingStates := ⟨true, true, true, true⟩ }) st.messages }
  else if e.type = "done" then
    { st with
      messages := updMsg agentMessageId (fun msg =>
        { msg with isLoading := false }) st.messages
      loading := false }
  else if e.type = "error" then
    { st with
      messages := updMsg agentMessageId (fun msg =>
        { msg with
          content := getUserFriendlyError (errorEventMessage e) "streaming"
          isError := true
          isLoading := false }) st.messages
      loading := false }
  else
    -- default: debugLog('Unknown event type:', event.type) — no state change
    st

/-- The placeholder agent message `sendMessage` appends before streaming
(`initialAgentMessage`). -/
def initialAgentMessage (agentMessageId : Nat) (database timestamp : String) :
    ChatMessage :=
  { id := agentMessageId
    content := ""
    sql_explanation := some ""
    analysis_explanation := some ""
    results := none
    visualization := none
    display_info := none
    query_id := none
    database := database
    suggestedQueries := some []
    schemaOverview := none
    timestamp := timestamp
    isUser := false
    isLoading := true
    isError := false
    loadingStates := ⟨false, false, false, false⟩
    sql_query := none
    user_question := none }

/-- The user message `sendMessage` appends. -/
def mkUserMessage (id : Nat) (query timestamp : String) : ChatMessage :=
  { id := id
    content := query
    sql_explanation := none
    analysis_explanation := none
    results := none
    visualization := none
    display_info := none
    query_id := none
    database := ""
    suggestedQueries := none
    schemaOverview := none
    timestamp := timestamp
    isUser := true
    isLoading := false
    isError := false
    loadingStates := ⟨false, false, false, false⟩
    sql_query := none
    user_question := none }

/-- The synchronous entry of `sendMessage` before any network activity:
the guard `if (!query.trim() || loading) return;` and, when it passes,
the appends of the user message and the loading placeholder plus
`setLoading(true)`.  Returns the updated state and whether the request
was issued (`false` = complete no-op, no HTTP call). -/
def sendMessageStart (st : ChatState) (query : String)
    (now : Nat) (database timestamp : String) : ChatState × Bool :=
  if jsTrim query.toList = [] || st.loading then (st, false)
  else
    ({ st with
        messages := st.messages
          ++ [mkUserMessage now query timestamp,
              initialAgentMessage (now + 1) database timestamp]
        loading := true },
     true)

/-! ## Outgoing request construction (`queryAgent`, src/services/api.js) -/

/-- The JSON body of `POST /chat`; `session_id : none` models the field
being absent from the object. -/
structure RequestBody where
  message : String
  database : String
  include_interpretation : Bool
  session_id : Option String
deriving DecidableEq

/-- `queryAgent`'s request body: always `message`, `database`,
`include_interpretation: false`; `session_id` only added when the
passed `sessionId` is truthy. -/
def queryAgentRequestBody (query : String) (sessionId : Option String)
    (database : String) : RequestBody :=
  { message := query
    database := database
    include_interpretation := false
    session_id := if jsStrTruthy sessionId then sessionId else none }

/-- The body of the next outgoing request from a given hook state:
`sendMessage` calls `queryAgent(query, sessionIdRef.current, …)`, so the
session slot is attached without the caller passing it. -/
def nextRequestBody (st : ChatState) (query database : String) : RequestBody :=
  queryAgentRequestBody query st.sessionId database

/-! ## Chart suitability (`DataVisualization`, src/components/DataVisualization.js)

The component decides between: rendering nothing (`null`), rendering an
error container (missing config / unresolvable columns), rendering a
chart, or suppressing an aggregate chart from the data heuristics.  We
embed the decision logic; the recharts drawing itself is presentation. -/

/-- The decision the component reaches before any drawing. -/
inductive RenderOutcome where
  /-- `return null`: no visualization, no data, or `type === 'none'`. -/
  | nothing
  /-- Error container: `x_column` or `y_column` missing from `config`. -/
  | configError
  /-- `return null` from the aggregation-suitability heuristics. -/
  | suppressed
  /-- Error container: columns not found and not mappable. -/
  | columnsError
  /-- A chart of type `ty` using the (possibly remapped) columns. -/
  | chart (ty x y : String)
  /-- JS `TypeError`: `processedData` is the backend's empty array while
  `data` is non-empty, so `processedData[0]` is `undefined` and
  `Object.keys(firstRow)` throws. -/
  | crash
deriving DecidableEq

/-- Column-name test of `hasNumericAggregate`: the lowercased key
contains one of `count,total,sum,avg,average,max,min` or equals
`value`/`amount`. -/
def isAggregateKey (k : String) : Bool :=
  let lk := jsToLower k
  strIncludes lk "count" || strIncludes lk "total" || strIncludes lk "sum" ||
  strIncludes lk "avg" || strIncludes lk "average" || strIncludes lk "max" ||
  strIncludes lk "min" || lk = "value" || lk = "amount"

/-- `hasNumericAggregate`: some field of the first row is numeric with an
aggregate-suggesting name. -/
def hasNumericAggregate (firstRow : Row) : Bool :=
  firstRow.any fun p =>
    (match p.2 with | .num _ => true | _ => false) && isAggregateKey p.1

/-- `stringColumnCount`: number of string-valued fields of the first row. -/
def stringColumnCount (firstRow : Row) : Nat :=
  (firstRow.filter fun p => match p.2 with | .str _ => true | _ => false).length

/-- `isRelationshipData = stringColumnCount >= 2 && !hasNumericAggregate`. -/
def isRelationshipData (firstRow : Row) : Bool :=
  stringColumnCount firstRow ≥ 2 && !hasNumericAggregate firstRow

/-- `hasDuplicates`: `new Set(xValues).size < xValues.length` where
`xValues = processedData.map(row => row[x_column])` — note the lookup
uses the x-column name it is given verbatim. -/
def hasDuplicateCats (processedData : List Row) (x_column : String) : Bool :=
  let xValues := processedData.map fun row => rowGet row x_column
  xValues.dedup.length < xValues.length

/-- The generic alias table of `findSuitableColumn`. -/
def columnAliases (lowerSuggested : String) : List String :=
  if lowerSuggested = "name" then ["label", "title", "category", "group"]
  else if lowerSuggested = "count" then ["total", "value", "amount", "num", "number"]
  else if lowerSuggested = "value" then ["count", "total", "amount", "num"]
  else if lowerSuggested = "category" then ["name", "label", "group", "type"]
  else []

/-- The alias loop: first alias (in table order) with a case-insensitive
column match wins. -/
def findAliasMatch (availableCols : List String) : List String → Option String
  | [] => none
  | a :: rest =>
    match availableCols.find? (fun col => jsToLower col = a) with
    | some m => some m
    | none => findAliasMatch availableCols rest

/-- `findSuitableColumn(suggestedName, availableCols, isXColumn)`:
exact match, case-insensitive match, substring match either direction,
alias-table lookup, then type-based fallback against the first row. -/
def findSuitableColumn (suggestedName : String) (availableCols : List String)
    (isXColumn : Bool) (firstRow : Row) : Option String :=
  if availableCols.contains suggestedName then some suggestedName
  else
    let lowerSuggested := jsToLower suggestedName
    match availableCols.find? (fun col => jsToLower col = lowerSuggested) with
    | some m => some m
    | none =>
      match availableCols.find? (fun col =>
          strIncludes (jsToLower col) lowerSuggested ||
          strIncludes lowerSuggested (jsToLower col)) with
      | some m => some m
      | none =>
        match findAliasMatch availableCols (columnAliases lowerSuggested) with
        | some m => some m
        | none =>
          if isXColumn && (lowerSuggested = "name" || lowerSuggested = "category") then
            availableCols.find? fun col =>
              (match rowGet firstRow col with | .str _ => true | _ => false)
                && col ≠ "items"
          else if !isXColumn && (lowerSuggested = "count" || lowerSuggested = "value") then
            availableCols.find? fun col =>
              match rowGet firstRow col with | .num _ => true | _ => false
          else none

/-- The decision flow of the `DataVisualization` component, in source
order: null-returns, the missing-config error, the aggregation
suitability check (which reads `row[x_column]` with the *raw* descriptor
name — column remapping happens later), then column validation and
remapping via `findSuitableColumn`. -/
def dataVisualization (visualization : Option Viz) (data : List Row) :
    RenderOutcome :=
  match visualization with
  | none => .nothing
  | some viz =>
    if data.isEmpty then .nothing
    else if viz.type = "none" then .nothing
    else if !jsStrTruthy viz.config.x_column || !jsStrTruthy viz.config.y_column then
      .configError
    else
      let processedData := viz.data.getD data
      let x_column := jsOrEmpty viz.config.x_column
      let y_column := jsOrEmpty viz.config.y_column
      match processedData.head? with
      | none => .crash
      | some firstRow =>
        let isAggregateChart := ["bar", "pie", "line"].contains viz.type
        if isAggregateChart && isRelationshipData firstRow then .suppressed
        else if isAggregateChart && !hasNumericAggregate firstRow &&
            !hasDuplicateCats processedData x_column &&
            decide (processedData.length > 5) then .suppressed
        else if rowHasKey firstRow x_column && rowHasKey firstRow y_column then
          .chart viz.type x_column y_column
        else
          let availableColumns := firstRow.map Prod.fst
          match findSuitableColumn x_column availableColumns true firstRow,
                findSuitableColumn y_column availableColumns false firstRow with
          | some mappedX, some mappedY => .chart viz.type mappedX mappedY
          | _, _ => .columnsError

/-- The chart types `renderChart` can actually draw. -/
def supportedChartTypes : List String := ["bar", "line", "pie", "scatter", "area"]

/-- Whether the component renders an actual chart (as opposed to nothing
or an error/diagnostic container). -/
def shouldRender (visualization : Option Viz) (data : List Row) : Bool :=
  match dataVisualization visualization data with
  | .chart ty _ _ => supportedChartTypes.contains ty
  | _ => false

/-! ## Spec-side definitions used to state claims -/

/-- Modelled from the spec (§4.3): the resolved x-column — the
descriptor name itself when it is a column of the first row, otherwise
the result of the resolution cascade (`findSuitableColumn`). -/
def specResolveXColumn (x_column : String) (firstRow : Row) : Option String :=
  if rowHasKey firstRow x_column then some x_column
  else findSuitableColumn x_column (firstRow.map Prod.fst) true firstRow

/-- Modelled from the spec (§4.3): `hasDuplicateCategories` = "the
resolved x-column has fewer distinct values than row count". -/
def specHasDuplicateCategoriesResolved (x_column : String)
    (processedData : List Row) : Bool :=
  match processedData.head? with
  | none => false
  | some firstRow =>
    match specResolveXColumn x_column firstRow with
    | some xc => hasDuplicateCats processedData xc
    | none => false

/-- The loading flags a given event forces to `true` in its transition
(read off the `switch` branches of `sendMessage`). -/
def eventFlags (e : StreamEvent) : LoadingStates :=
  if e.type = "sql" then ⟨true, false, false, false⟩
  else if e.type = "data" then ⟨false, true, false, false⟩
  else if e.type = "interpretation" then ⟨false, false, true, true⟩
  else if e.type = "analysis" then ⟨false, false, true, false⟩
  else if e.type = "visualization" then ⟨false, false, false, true⟩
  else if e.type = "general_answer" || e.type = "guidance" then ⟨true, true, true, true⟩
  else ⟨false, false, false, false⟩

/-- Pointwise implication of loading-flag records. -/
def lsLe (a b : LoadingStates) : Prop :=
  (a.sql = true → b.sql = true) ∧ (a.data = true → b.data = true) ∧
  (a.analysis = true → b.analysis = true) ∧
  (a.visualization = true → b.visualization = true)

/-- An `interpretation` event carrying an analysis text `a`, a chart
descriptor `v` and the ambient schema/suggestion metadata. -/
def interpretationEvent (a : String) (v : Option Viz)
    (so : Option SchemaOverview) (sq : Option (List String)) : StreamEvent :=
  { type := "interpretation", analysis := some a, visualization := v
    schema_overview := so, suggested_queries := sq }

/-- A legacy `analysis` event with explanation `a`. -/
def analysisEvent (a : String) : StreamEvent :=
  { type := "analysis", explanation := some a }

/-- A legacy `visualization` event carrying descriptor `v` and the
ambient schema/suggestion metadata. -/
def visualizationEvent (v : Option Viz) (so : Option SchemaOverview)
    (sq : Option (List String)) : StreamEvent :=
  { type := "visualization", visualization := v
    schema_overview := so, suggested_queries := sq }

/-- A `session` event carrying a session id. -/
def sessionEvent (sid : String) : StreamEvent :=
  { type := "session", session_id := some sid }

/-! ## Concrete instances used as witnesses and counterexamples -/

/-- A sample non-terminal parsed event. -/
def sampleSqlEvent : StreamEvent :=
  { type := "sql", explanation := some "expl", sql := some "SELECT 1"
    query_id := some "q1" }

/-- A sample terminal event. -/
def sampleDoneEvent : StreamEvent := { type := "done" }

/-- A concrete JSON parser for witness streams: payload `1` is the sql
event, payload `D` the done event, anything else is a parse failure. -/
def sampleParse : List Char → Option StreamEvent := fun l =>
  if l = "1".toList then some sampleSqlEvent
  else if l = "D".toList then some sampleDoneEvent
  else none

/-- Six rows whose properly-cased `Region` column is duplicate-free and
whose `size` column is numeric but not aggregate-named. -/
def rowsC3 : List Row :=
  [[("Region", .str "r1"), ("size", .num 1)],
   [("Region", .str "r2"), ("size", .num 2)],
   [("Region", .str "r3"), ("size", .num 3)],
   [("Region", .str "r4"), ("size", .num 4)],
   [("Region", .str "r5"), ("size", .num 5)],
   [("Region", .str "r6"), ("size", .num 6)]]

/-- A bar descriptor naming the x column in the wrong case (`region`),
so resolution must map it to `Region`. -/
def vizC3 : Viz :=
  { type := "bar", title := "t"
    config := { x_column := some "region", y_column := some "size", reason := none }
    data := none }

/-- Relationship rows: two string-valued fields, no aggregates. -/
def rowsC4 : List Row :=
  [[("vip", .str "v1"), ("pool", .str "p1")],
   [("vip", .str "v2"), ("pool", .str "p2")]]

/-- The bar descriptor of the relationship-data suppression example. -/
def vizC4 : Viz :=
  { type := "bar", title := "t"
    config := { x_column := some "vip", y_column := some "pool", reason := none }
    data := none }

/-- The agent message after `sampleSqlEvent` then `sampleDoneEvent` hit
the fresh placeholder `initialAgentMessage 1 "db" "ts"` with query `q`. -/
def sampleFinalMessage : ChatMessage :=
  { id := 1
    content := ""
    sql_explanation := some "expl"
    analysis_explanation := some ""
    results := none
    visualization := none
    display_info := none
    query_id := some "q1"
    database := "db"
    suggestedQueries := some []
    schemaOverview := none
    timestamp := "ts"
    isUser := false
    isLoading := false
    isError := false
    loadingStates := ⟨true, false, false, false⟩
    sql_query := some "SELECT 1"
    user_question := some "q" }

/-! ## Transport lemmas -/

/-- The stream consisting of the given lines, each newline-terminated. -/
def linesStream (ls : List (List Char)) : List Char :=
  (ls.map (· ++ ['\n'])).flatten

lemma splitNl_noNl {a : List Char} (ha : noNl a) : splitNl a = [a] := by
  induction a with
  | nil => rfl
  | cons c cs ih =>
    have hc : c ≠ '\n' := fun h => ha (h ▸ List.mem_cons_self c cs)
    have hcs : noNl cs := fun h => ha (List.mem_cons_of_mem c h)
    simp [splitNl, hc, ih hcs]

lemma splitNl_append_cons {a b : List Char} (ha : noNl a) :
    splitNl (a ++ '\n' :: b) = a :: splitNl b := by
  induction a with
  | nil => simp [splitNl]
  | cons c cs ih =>
    have hc : c ≠ '\n' := fun h => ha (h ▸ List.mem_cons_self c cs)
    have hcs : noNl cs := fun h => ha (List.mem_cons_of_mem c h)
    have hrec := ih hcs
    show splitNl (c :: (cs ++ '\n' :: b)) = (c :: cs) :: splitNl b
    simp only [splitNl, if_neg hc, hrec]

lemma splitNl_linesStream {ls : List (List Char)} {r : List Char}
    (hls : ∀ l ∈ ls, noNl l) (hr : noNl r) :
    splitNl (linesStream ls ++ r) = ls ++ [r] := by
  induction ls with
  | nil => simpa [linesStream] using splitNl_noNl hr
  | cons l rest ih =>
    have hl : noNl l := hls l (List.mem_cons_self l rest)
    have hrest : ∀ x ∈ rest, noNl x := fun x hx => hls x (List.mem_cons_of_mem l hx)
    have : linesStream (l :: rest) ++ r = l ++ '\n' :: (linesStream rest ++ r) := by
      simp [linesStream]
    rw [this, splitNl_append_cons hl, ih hrest]
    rfl

lemma nl_mem_linesStream {ls : List (List Char)} (h : ls ≠ []) :
    '\n' ∈ linesStream ls := by
  cases ls with
  | nil => exact absurd rfl h
  | cons l rest =>
    have : linesStream (l :: rest) = l ++ '\n' :: linesStream rest := by
      simp [linesStream]
    rw [this]
    exact List.mem_append.mpr (Or.inr (List.mem_cons_self _ _))

lemma linesStream_take_succ {l : List Char} {rest : List (List Char)} (k : ℕ) :
    linesStream (List.take (k + 1) (l :: rest)) =
      (l ++ ['\n']) ++ linesStream (List.take k rest) := by
  simp [linesStream, List.take_cons]

/-- Decomposition of a prefix of a line stream: a prefix `s` consists of
some number `k` of complete lines followed by a newline-free remainder. -/
lemma stream_prefix_decomp :
    ∀ (ls : List (List Char)) (s t : List Char), (∀ l ∈ ls, noNl l) →
    s ++ t = linesStream ls →
    ∃ k r, k ≤ ls.length ∧ s = linesStream (ls.take k) ++ r ∧ noNl r ∧
      r ++ t = linesStream (ls.drop k) := by
  intro ls
  induction ls with
  | nil =>
    intro s t _ h
    have hs : s = [] := by
      have : s ++ t = [] := by simpa [linesStream] using h
      exact List.append_eq_nil.mp this |>.1
    exact ⟨0, [], by simp, by simp [hs, linesStream], by simp [noNl], by
      simpa [hs, linesStream] using h⟩
  | cons l rest ih =>
    intro s t hnl h
    have hl : noNl l := hnl l (List.mem_cons_self l rest)
    have hrest : ∀ x ∈ rest, noNl x := fun x hx => hnl x (List.mem_cons_of_mem l hx)
    have h' : s ++ t = (l ++ ['\n']) ++ linesStream rest := by
      rw [h]; simp [linesStream]
    rcases List.append_eq_append_iff.mp h' with ⟨a, hfr, hta⟩ | ⟨c, hs, hrest'⟩
    · -- `l ++ ['\n'] = s ++ a`: s stops inside (or exactly at the end of) this line
      cases a with
      | nil =>
        -- s is exactly the full first line: recurse on the rest with s' = []
        have hs : s = l ++ ['\n'] := by simpa using hfr.symm
        have ht : t = linesStream rest := by simpa using hta
        obtain ⟨k, r, hk, hs', hr, hrt⟩ :=
          ih [] t hrest (by simp [ht])
        refine ⟨k + 1, r, by simpa using Nat.succ_le_succ hk, ?_, hr, ?_⟩
        · rw [linesStream_take_succ, hs]
          simpa using hs'
        · simpa using hrt
      | cons a0 as =>
        -- s is a proper prefix of `l ++ ['\n']`, hence a prefix of `l`
        have hslen : s.length ≤ l.length := by
          have := congrArg List.length hfr
          simp at this
          omega
        have hsl : s = l.take s.length := by
          have h1 : s = (l ++ ['\n']).take s.length := by
            rw [hfr]
            exact (List.take_left s _).symm
          conv_lhs => rw [h1]
          rw [List.take_append_eq_append_take, Nat.sub_eq_zero_of_le hslen]
          simp
        have hnos : noNl s := by
          intro hmem
          exact hl (List.take_subset _ _ (hsl ▸ hmem))
        exact ⟨0, s, Nat.zero_le _, by simp [linesStream], hnos, by
          simpa [linesStream] using h⟩
    · -- s extends past the first line: `s = (l ++ ['\n']) ++ c`
      obtain ⟨k, r, hk, hs', hr, hrt⟩ := ih c t hrest hrest'.symm
      refine ⟨k + 1, r, by simpa using Nat.succ_le_succ hk, ?_, hr, ?_⟩
      · rw [linesStream_take_succ, hs, hs']
        simp
      · simpa using hrt

lemma procLines_no_term {parse : List Char → Option StreamEvent}
    {ls : List (List Char)}
    (h : ∀ l ∈ ls, ∀ e, procLine parse l = some e → isTerminal e = false) :
    procLines parse ls = (ls.filterMap (procLine parse), false) := by
  induction ls with
  | nil => rfl
  | cons l rest ih =>
    have hrest : ∀ x ∈ rest, ∀ e, procLine parse x = some e → isTerminal e = false :=
      fun x hx => h x (List.mem_cons_of_mem l hx)
    cases he : procLine parse l with
    | none => simp [procLines, he, ih hrest]
    | some e =>
      have hnt : isTerminal e = false := h l (List.mem_cons_self l rest) e he
      simp [procLines, he, hnt, ih hrest]

lemma procLines_term_last {parse : List Char → Option StreamEvent}
    {ls : List (List Char)} {lt : List Char} {e : StreamEvent}
    (h : ∀ l ∈ ls, ∀ e, procLine parse l = some e → isTerminal e = false)
    (he : procLine parse lt = some e) (ht : isTerminal e = true) :
    procLines parse (ls ++ [lt]) = ((ls ++ [lt]).filterMap (procLine parse), true) := by
  induction ls with
  | nil => simp [procLines, he, ht]
  | cons l rest ih =>
    have hrest : ∀ x ∈ rest, ∀ e, procLine parse x = some e → isTerminal e = false :=
      fun x hx => h x (List.mem_cons_of_mem l hx)
    cases hl : procLine parse l with
    | none => simp [procLines, hl, ih hrest]
    | some e' =>
      have hnt : isTerminal e' = false := h l (List.mem_cons_self l rest) e' hl
      simp [procLines, hl, hnt, ih hrest]

lemma take_subset_dropLast {α : Type _} {k : ℕ} {ls : List α} (hk : k < ls.length) :
    ls.take k ⊆ ls.dropLast := by
  rw [List.dropLast_eq_take]
  intro x hx
  have : ls.take k = (ls.take (ls.length - 1)).take k := by
    rw [List.take_take, Nat.min_eq_left (by omega)]
  exact List.take_subset _ _ (this ▸ hx)

lemma dropLast_drop_subset {α : Type _} (k : ℕ) (ls : List α) :
    (ls.drop k).dropLast ⊆ ls.dropLast := by
  induction k generalizing ls with
  | zero => simp
  | succ n ih =>
    cases ls with
    | nil => simp
    | cons a as =>
      rw [List.drop_succ_cons]
      intro x hx
      have hx' : x ∈ as.dropLast := ih as hx
      cases as with
      | nil => simp at hx'
      | cons b bs =>
        rw [List.dropLast_cons₂]
        exact List.mem_cons_of_mem a hx'

/-- Master round-trip lemma for the read loop: if the retained buffer
plus the remaining chunks spell out a sequence of newline-terminated
lines, none of which (except possibly the last) yields a terminal
event, then the loop delivers exactly the events of those lines, in
order. -/
lemma readLoop_linesStream (parse : List Char → Option StreamEvent) :
    ∀ (chunks : List (List Char)) (buf : List Char) (ls : List (List Char)),
    (∀ l ∈ ls, noNl l) → noNl buf →
    (∀ l ∈ ls.dropLast, ∀ e, procLine parse l = some e → isTerminal e = false) →
    buf ++ chunksJoin chunks = linesStream ls →
    readLoop parse chunks buf = ls.filterMap (procLine parse) := by
  intro chunks
  induction chunks with
  | nil =>
    intro buf ls hnl hbuf _ hstream
    have hls : ls = [] := by
      by_contra hne
      have hmem : '\n' ∈ buf ++ chunksJoin [] := by
        rw [hstream]
        exact nl_mem_linesStream hne
      exact hbuf (by simpa [chunksJoin] using hmem)
    simp [readLoop, hls]
  | cons c rest ih =>
    intro buf ls hnl hbuf hterm hstream
    have hdecomp := stream_prefix_decomp ls (buf ++ c) (chunksJoin rest) hnl
      (by simpa [chunksJoin, List.append_assoc] using hstream)
    obtain ⟨k, r, hk, hs, hr, hrt⟩ := hdecomp
    have hsplit : splitNl (buf ++ c) = ls.take k ++ [r] := by
      rw [hs]
      exact splitNl_linesStream (fun l hl => hnl l (List.take_subset _ _ hl)) hr
    rcases Nat.lt_or_ge k ls.length with hklt | hkge
    · -- strictly fewer than all lines completed: none of them is terminal
      have htk : ∀ l ∈ ls.take k, ∀ e, procLine parse l = some e →
          isTerminal e = false :=
        fun l hl => hterm l (take_subset_dropLast hklt hl)
      have hproc := procLines_no_term htk
      have hrec := ih r (ls.drop k)
        (fun l hl => hnl l (List.drop_subset _ _ hl)) hr
        (fun l hl => hterm l (dropLast_drop_subset k ls hl)) hrt
      rw [readLoop, hsplit]
      simp only [List.dropLast_concat, List.getLastD_concat, hproc]
      rw [hrec, ← List.filterMap_append, List.take_append_drop]
      simp
    · -- all lines completed in this chunk
      have hkeq : k = ls.length := Nat.le_antisymm hk hkge
      subst hkeq
      rw [List.take_length] at hsplit hs
      rw [List.drop_length] at hrt
      rcases List.eq_nil_or_concat ls with hnil | ⟨init, lt, hconcat⟩
      · subst hnil
        have hrec := ih r [] (by simp) hr (by simp)
          (by simpa [linesStream] using hrt)
        rw [readLoop, hsplit]
        simp [procLines, hrec]
      · rw [List.concat_eq_append] at hconcat
        subst hconcat
        by_cases hlast : ∃ e, procLine parse lt = some e ∧ isTerminal e = true
        · obtain ⟨e, he, hte⟩ := hlast
          have hinit : ∀ l ∈ init, ∀ e, procLine parse l = some e →
              isTerminal e = false := by
            intro l hl
            exact hterm l (by rw [List.dropLast_concat]; exact hl)
          rw [readLoop, hsplit]
          simp only [List.dropLast_concat, List.getLastD_concat]
          rw [procLines_term_last hinit he hte]
          simp
        · have hnot : ∀ l ∈ init ++ [lt], ∀ e, procLine parse l = some e →
              isTerminal e = false := by
            intro l hl e he
            rcases List.mem_append.mp hl with hl' | hl'
            · exact hterm l (by rw [List.dropLast_concat]; exact hl') e he
            · have hllt : l = lt := by simpa using hl'
              subst hllt
              by_contra hne
              exact hlast ⟨e, he, by simpa using hne⟩
          have hrec := ih r [] (by simp) hr (by simp)
            (by simpa [linesStream] using hrt)
          rw [readLoop, hsplit]
          simp only [List.dropLast_concat, List.getLastD_concat]
          rw [procLines_no_term hnot]
          simp [hrec]

lemma noNl_dataPrefix_append {j : List Char} (hj : noNl j) :
    noNl (dataPrefix ++ j) := by
  intro hmem
  rcases List.mem_append.mp hmem with h | h
  · simp [dataPrefix] at h
  · exact hj h

lemma procLine_frame (parse : List Char → Option StreamEvent) (j : List Char) :
    procLine parse (dataPrefix ++ j) =
      if jsTrim j ≠ [] then parse j else none := by
  have hpre : dataPrefix.isPrefixOf (dataPrefix ++ j) = true :=
    List.isPrefixOf_iff_prefix.mpr (List.prefix_append _ _)
  have hdrop : (dataPrefix ++ j).drop 6 = j := List.drop_left dataPrefix j
  simp only [procLine, hpre, if_true, hdrop]

lemma linesStream_frames (js : List (List Char)) :
    linesStream (js.map (fun j => dataPrefix ++ j)) = framesStream js := by
  unfold linesStream framesStream
  rw [List.map_map]
  congr 1

lemma filterMap_eq_map_of {α β : Type _} {l : List α} {f : α → Option β}
    {g : α → β} (h : ∀ x ∈ l, f x = some (g x)) :
    l.filterMap f = l.map g := by
  induction l with
  | nil => rfl
  | cons a as ih =>
    rw [List.filterMap_cons, h a (List.mem_cons_self a as), List.map_cons,
      ih (fun x hx => h x (List.mem_cons_of_mem a hx))]

/-- C1: Transport round-trip — for every sequence of well-formed SSE
frames (`data: <json>` lines, each newline-terminated, only the last of
which may carry a terminal event) and every way of cutting the
concatenated stream into read chunks, including cuts in the middle of a
frame, the read loop delivers exactly the frames' events to `onEvent`,
in frame order, losing and duplicating none. -/
theorem sse_chunked_roundtrip (parse : List Char → Option StreamEvent)
    (framePairs : List (List Char × StreamEvent)) (chunks : List (List Char))
    (hwf : ∀ p ∈ framePairs, noNl p.1 ∧ jsTrim p.1 ≠ [] ∧ parse p.1 = some p.2)
    (hterm : ∀ p ∈ framePairs.dropLast, isTerminal p.2 = false)
    (hchunks : chunksJoin chunks = framesStream (framePairs.map Prod.fst)) :
    readLoop parse chunks [] = framePairs.map Prod.snd := by
  have hproc : ∀ p ∈ framePairs,
      procLine parse (dataPrefix ++ p.1) = some p.2 := by
    intro p hp
    obtain ⟨-, htrim, hparse⟩ := hwf p hp
    rw [procLine_frame, if_pos htrim, hparse]
  have hmaster := readLoop_linesStream parse chunks []
    (framePairs.map (fun p => dataPrefix ++ p.1))
    (by
      intro l hl
      obtain ⟨p, hp, rfl⟩ := List.mem_map.mp hl
      exact noNl_dataPrefix_append (hwf p hp).1)
    (by simp [noNl])
    (by
      intro l hl e he
      rw [← List.map_dropLast] at hl
      obtain ⟨p, hp, rfl⟩ := List.mem_map.mp hl
      have hp' : p ∈ framePairs := List.dropLast_subset _ hp
      rw [hproc p hp'] at he
      cases he
      exact hterm p hp)
    (by
      have hm : framePairs.map (fun p => dataPrefix ++ p.1) =
          (framePairs.map Prod.fst).map (fun j => dataPrefix ++ j) := by
        rw [List.map_map]
        rfl
      rw [hm, linesStream_frames, ← hchunks]
      simp [chunksJoin])
  rw [hmaster, List.filterMap_map]
  exact filterMap_eq_map_of (fun p hp => hproc p hp)

/-- Witness for C1: two frames (`sql` then terminal `done`) cut at
chunk boundaries that fall inside both frames. -/
theorem sse_chunked_roundtrip_witness :
    readLoop sampleParse ["da".toList, "ta: 1\ndat".toList, "a: D\n".toList] [] =
      [sampleSqlEvent, sampleDoneEvent] := by
  have h := sse_chunked_roundtrip sampleParse
    [("1".toList, sampleSqlEvent), ("D".toList, sampleDoneEvent)]
    ["da".toList, "ta: 1\ndat".toList, "a: D\n".toList]
    (by decide) (by decide) (by decide)
  simpa using h

/-- C7: Malformed-frame tolerance — in a stream of `data: ` frames, a
line whose payload fails to parse (or is blank) yields no event and
does not abort the loop: the delivered events are exactly those of the
lines that do parse, in order, so every well-formed frame after a
malformed one is still delivered. -/
theorem malformed_frames_tolerated (parse : List Char → Option StreamEvent)
    (frames : List (List Char)) (chunks : List (List Char))
    (hnl : ∀ j ∈ frames, noNl j)
    (hterm : ∀ j ∈ frames.dropLast, ∀ e, parse j = some e → isTerminal e = false)
    (hchunks : chunksJoin chunks = framesStream frames) :
    readLoop parse chunks [] =
      frames.filterMap (fun j => if jsTrim j ≠ [] then parse j else none) := by
  have hmaster := readLoop_linesStream parse chunks []
    (frames.map (fun j => dataPrefix ++ j))
    (by
      intro l hl
      obtain ⟨j, hj, rfl⟩ := List.mem_map.mp hl
      exact noNl_dataPrefix_append (hnl j hj))
    (by simp [noNl])
    (by
      intro l hl e he
      rw [← List.map_dropLast] at hl
      obtain ⟨j, hj, rfl⟩ := List.mem_map.mp hl
      rw [procLine_frame] at he
      split at he
      · exact hterm j hj e he
      · cases he)
    (by
      rw [linesStream_frames, ← hchunks]
      simp [chunksJoin])
  rw [hmaster, List.filterMap_map]
  exact List.filterMap_congr (fun j _ => procLine_frame parse j)

/-- Witness for C7: a malformed middle frame is skipped; the `sql` and
terminal `done` frames around it are both delivered, in order. -/
theorem malformed_frames_tolerated_witness :
    readLoop sampleParse ["data: 1\nda".toList, "ta: bad\ndata: D\n".toList] [] =
      [sampleSqlEvent, sampleDoneEvent] := by
  have h := malformed_frames_tolerated sampleParse
    ["1".toList, "bad".toList, "D".toList]
    ["data: 1\nda".toList, "ta: bad\ndata: D\n".toList]
    (by decide) (by decide) (by decide)
  rw [h]
  decide

/-! ## Conversation state machine lemmas -/

/-- C2: Protocol-equivalence law — one `interpretation` event carrying
analysis `a`, visualization `v`, schema overview `so` and suggested
queries `sq` produces exactly the state reached by an `analysis` event
with explanation `a` followed by a `visualization` event carrying `v`,
`so` and `sq` (both loading flags end true). -/
theorem interpretation_equiv_analysis_visualization
    (mid : Nat) (q : String) (st : ChatState) (a : String) (v : Option Viz)
    (so : Option SchemaOverview) (sq : Option (List String)) :
    applyEvent mid q st (interpretationEvent a v so sq) =
      applyEvent mid q (applyEvent mid q st (analysisEvent a))
        (visualizationEvent v so sq) := by
  simp [applyEvent, interpretationEvent, analysisEvent, visualizationEvent,
    updMsg, List.map_map]
  intro m _
  by_cases hm : m.id = mid
  · simp [Function.comp, hm, jsOrEmpty]
  · simp [Function.comp, hm]

/-- C9: Unknown-event no-op — an event whose type is none of the ten
dispatched types leaves the entire hook state (message list, loading
flag, session slot) unchanged. -/
theorem unknown_event_noop (mid : Nat) (q : String) (st : ChatState)
    (e : StreamEvent)
    (h : e.type ∉ ["session", "sql", "data", "interpretation", "analysis",
      "visualization", "general_answer", "guidance", "done", "error"]) :
    applyEvent mid q st e = st := by
  simp only [List.mem_cons, List.not_mem_nil, or_false, not_or] at h
  obtain ⟨h1, h2, h3, h4, h5, h6, h7, h8, h9, h10⟩ := h
  simp [applyEvent, h1, h2, h3, h4, h5, h6, h7, h8, h9, h10]

/-- Witness for C9: a `schema_ready` event is ignored. -/
theorem unknown_event_noop_witness :
    applyEvent 7 "q" ⟨[], true, none⟩ { type := "schema_ready" } =
      (⟨[], true, none⟩ : ChatState) :=
  unknown_event_noop 7 "q" ⟨[], true, none⟩ { type := "schema_ready" } (by decide)

/-- Branch shape of `applyEvent`: every transition either leaves the
message list untouched (and forces no loading flag), or rewrites it via
the id-keyed `updMsg` pattern with a per-message function that keeps
ids, never clears a loading flag, and sets at least the flags of
`eventFlags`. -/
lemma applyEvent_messages_shape (mid : Nat) (q : String) (st : ChatState)
    (e : StreamEvent) :
    ((applyEvent mid q st e).messages = st.messages ∧
      eventFlags e = ⟨false, false, false, false⟩) ∨
    ∃ f : ChatMessage → ChatMessage,
      (applyEvent mid q st e).messages = updMsg mid f st.messages ∧
      (∀ m, (f m).id = m.id) ∧
      (∀ m, lsLe m.loadingStates (f m).loadingStates) ∧
      (∀ m, lsLe (eventFlags e) ((f m).loadingStates)) := by
  by_cases h1 : e.type = "session"
  · left
    constructor
    · simp only [applyEvent, h1, if_true]
      split <;> rfl
    · simp [eventFlags, h1]
  by_cases h2 : e.type = "sql"
  · right
    refine ⟨fun msg => { msg with
        sql_explanation := e.explanation
        sql_query := e.sql
        query_id := e.query_id
        user_question := some q
        loadingStates := { msg.loadingStates with sql := true } },
      by simp [applyEvent, h1, h2], fun m => rfl, fun m => ?_, fun m => ?_⟩
    · simp [lsLe]
    · simp [eventFlags, h2, lsLe]
  by_cases h3 : e.type = "data"
  · right
    refine ⟨fun msg => { msg with
        results := e.results
        display_info := e.display_info
        loadingStates := { msg.loadingStates with data := true } },
      by simp [applyEvent, h1, h2, h3], fun m => rfl, fun m => ?_, fun m => ?_⟩
    · simp [lsLe]
    · simp [eventFlags, h2, h3, lsLe]
  by_cases h4 : e.type = "interpretation"
  · right
    refine ⟨fun msg => { msg with
        analysis_explanation := some (jsOrEmpty e.analysis)
        visualization := e.visualization
        schemaOverview := e.schema_overview
        suggestedQueries := e.suggested_queries
        loadingStates := { msg.loadingStates with
          analysis := true, visualization := true } },
      by simp [applyEvent, h1, h2, h3, h4], fun m => rfl, fun m => ?_, fun m => ?_⟩
    · simp [lsLe]
    · simp [eventFlags, h2, h3, h4, lsLe]
  by_cases h5 : e.type = "analysis"
  · right
    refine ⟨fun msg => { msg with
        analysis_explanation := e.explanation
        loadingStates := { msg.loadingStates with analysis := true } },
      by simp [applyEvent, h1, h2, h3, h4, h5], fun m => rfl, fun m => ?_, fun m => ?_⟩
    · simp [lsLe]
    · simp [eventFlags, h2, h3, h4, h5, lsLe]
  by_cases h6 : e.type = "visualization"
  · right
    refine ⟨fun msg => { msg with
        visualization := e.visualization
        schemaOverview := e.schema_overview
        suggestedQueries := e.suggested_queries
        loadingStates := { msg.loadingStates with visualization := true } },
      by simp [applyEvent, h1, h2, h3, h4, h5, h6], fun m => rfl,
      fun m => ?_, fun m => ?_⟩
    · simp [lsLe]
    · simp [eventFlags, h2, h3, h4, h5, h6, lsLe]
  by_cases h7 : e.type = "general_answer"
  · right
    refine ⟨fun msg => { msg with
        content := jsOrEmpty e.answer
        query_id := e.query_id
        isLoading := false
        loadingStates := ⟨true, true, true, true⟩ },
      by simp [applyEvent, h1, h2, h3, h4, h5, h6, h7], fun m => rfl,
      fun m => ?_, fun m => ?_⟩
    · simp [lsLe]
    · simp [eventFlags, h2, h3, h4, h5, h6, h7, lsLe]
  by_cases h8 : e.type = "guidance"
  · right
    refine ⟨fun msg => { msg with
        content := jsOrEmpty e.message
        schemaOverview := e.schema_overview
        suggestedQueries := e.suggested_queries
        isLoading := false
        loadingStates := ⟨true, true, true, true⟩ },
      by simp [applyEvent, h1, h2, h3, h4, h5, h6, h7, h8], fun m => rfl,
      fun m => ?_, fun m => ?_⟩
    · simp [lsLe]
    · simp [eventFlags, h2, h3, h4, h5, h6, h7, h8, lsLe]
  by_cases h9 : e.type = "done"
  · right
    refine ⟨fun msg => { msg with isLoading := false },
      by simp [applyEvent, h1, h2, h3, h4, h5, h6, h7, h8, h9], fun m => rfl,
      fun m => ?_, fun m => ?_⟩
    · simp [lsLe]
    · simp [eventFlags, h2, h3, h4, h5, h6, h7, h8, h9, lsLe]
  by_cases h10 : e.type = "error"
  · right
    refine ⟨fun msg => { msg with
        content := getUserFriendlyError (errorEventMessage e) "streaming"
        isError := true
        isLoading := false },
      by simp [applyEvent, h1, h2, h3, h4, h5, h6, h7, h8, h9, h10], fun m => rfl,
      fun m => ?_, fun m => ?_⟩
    · simp [lsLe]
    · simp [eventFlags, h2, h3, h4, h5, h6, h7, h8, h9, h10, lsLe]
  · left
    constructor
    · simp [applyEvent, h1, h2, h3, h4, h5, h6, h7, h8, h9, h10]
    · simp [eventFlags, h2, h3, h4, h5, h6, h7, h8]

lemma updMsg_getElem (mid : Nat) (f : ChatMessage → ChatMessage)
    (msgs : List ChatMessage) (i : Nat) :
    (updMsg mid f msgs)[i]? =
      msgs[i]?.map (fun m => if m.id = mid then f m else m) := by
  simp [updMsg, List.getElem?_map]

lemma applyEvent_session_messages (mid : Nat) (q : String) (st : ChatState)
    (e : StreamEvent) (h : e.type = "session") :
    (applyEvent mid q st e).messages = st.messages := by
  simp only [applyEvent, h, if_true]
  split <;> rfl

/-- C8: Per-message frame property — applying any stream event preserves
the length (and hence order) of the message list and leaves every
message whose id differs from the in-flight agent message id unchanged
at its position; a `session` event changes no message at all. -/
theorem applyEvent_frames_other_messages (mid : Nat) (q : String)
    (st : ChatState) (e : StreamEvent) (i : Nat) (m : ChatMessage)
    (hm : st.messages[i]? = some m) (hid : m.id ≠ mid) :
    (applyEvent mid q st e).messages.length = st.messages.length ∧
    (applyEvent mid q st e).messages[i]? = some m ∧
    (e.type = "session" → (applyEvent mid q st e).messages = st.messages) := by
  refine ⟨?_, ?_, fun hs => applyEvent_session_messages mid q st e hs⟩
  · rcases applyEvent_messages_shape mid q st e with ⟨hsh, -⟩ | ⟨f, hsh, -, -, -⟩
    · rw [hsh]
    · rw [hsh, updMsg, List.length_map]
  · rcases applyEvent_messages_shape mid q st e with ⟨hsh, -⟩ | ⟨f, hsh, -, -, -⟩
    · rw [hsh, hm]
    · rw [hsh, updMsg_getElem, hm]
      simp [hid]

/-- Witness for C8: a `data` event leaves a message with a different id
untouched. -/
theorem applyEvent_frames_other_messages_witness :
    (applyEvent 3 "q" ⟨[initialAgentMessage 5 "db" "ts"], true, none⟩
        { type := "data" }).messages.length = 1 ∧
    (applyEvent 3 "q" ⟨[initialAgentMessage 5 "db" "ts"], true, none⟩
        { type := "data" }).messages[0]? = some (initialAgentMessage 5 "db" "ts") ∧
    (StreamEvent.type { type := "data" } = "session" →
      (applyEvent 3 "q" ⟨[initialAgentMessage 5 "db" "ts"], true, none⟩
        { type := "data" }).messages = [initialAgentMessage 5 "db" "ts"]) := by
  have h := applyEvent_frames_other_messages 3 "q"
    ⟨[initialAgentMessage 5 "db" "ts"], true, none⟩ { type := "data" } 0
    (initialAgentMessage 5 "db" "ts") (by decide) (by decide)
  simpa using h

lemma flag_preserved {proj : LoadingStates → Bool}
    (hmono : ∀ a b, lsLe a b → proj a = true → proj b = true)
    (mid : Nat) (q : String) (st : ChatState) (e : StreamEvent)
    (h : ∀ m ∈ st.messages, m.id = mid → proj m.loadingStates = true) :
    ∀ m ∈ (applyEvent mid q st e).messages, m.id = mid →
      proj m.loadingStates = true := by
  rcases applyEvent_messages_shape mid q st e with ⟨hsh, -⟩ | ⟨f, hsh, hfid, hfle, -⟩
  · rw [hsh]; exact h
  · rw [hsh]
    intro m hm hid
    obtain ⟨m', hm', rfl⟩ := List.mem_map.mp hm
    by_cases h' : m'.id = mid
    · rw [if_pos h']
      exact hmono _ _ (hfle m') (h m' hm' h')
    · rw [if_neg h'] at hid ⊢
      exact h m' hm' hid

lemma flag_set {proj : LoadingStates → Bool}
    (hmono : ∀ a b, lsLe a b → proj a = true → proj b = true)
    (hfalse : proj ⟨false, false, false, false⟩ = false)
    (mid : Nat) (q : String) (st : ChatState) (e : StreamEvent)
    (hset : proj (eventFlags e) = true) :
    ∀ m ∈ (applyEvent mid q st e).messages, m.id = mid →
      proj m.loadingStates = true := by
  rcases applyEvent_messages_shape mid q st e with ⟨-, hfl⟩ | ⟨f, hsh, hfid, -, hev⟩
  · rw [hfl] at hset
    exact absurd hset (by simp [hfalse])
  · rw [hsh]
    intro m hm hid
    obtain ⟨m', hm', rfl⟩ := List.mem_map.mp hm
    by_cases h' : m'.id = mid
    · rw [if_pos h']
      exact hmono _ _ (hev m') hset
    · rw [if_neg h'] at hid
      exact absurd hid h'
  
lemma flag_foldl_preserved {proj : LoadingStates → Bool}
    (hmono : ∀ a b, lsLe a b → proj a = true → proj b = true)
    (mid : Nat) (q : String) :
    ∀ (evs : List StreamEvent) (st : ChatState),
    (∀ m ∈ st.messages, m.id = mid → proj m.loadingStates = true) →
    ∀ m ∈ (evs.foldl (applyEvent mid q) st).messages, m.id = mid →
      proj m.loadingStates = true := by
  intro evs
  induction evs with
  | nil => intro st h; exact h
  | cons a rest ih =>
    intro st h
    exact ih (applyEvent mid q st a) (flag_preserved hmono mid q st a h)

lemma flag_foldl_set {proj : LoadingStates → Bool}
    (hmono : ∀ a b, lsLe a b → proj a = true → proj b = true)
    (hfalse : proj ⟨false, false, false, false⟩ = false)
    (mid : Nat) (q : String) :
    ∀ (evs : List StreamEvent) (st : ChatState) (e : StreamEvent), e ∈ evs →
    proj (eventFlags e) = true →
    ∀ m ∈ (evs.foldl (applyEvent mid q) st).messages, m.id = mid →
      proj m.loadingStates = true := by
  intro evs
  induction evs with
  | nil => intro st e he; exact absurd he (List.not_mem_nil e)
  | cons a rest ih =>
    intro st e he hset
    rcases List.mem_cons.mp he with rfl | he'
    · exact flag_foldl_preserved hmono mid q rest (applyEvent mid q st e)
        (flag_set hmono hfalse mid q st e hset)
    · exact ih (applyEvent mid q st a) e he' hset

lemma applyEvent_done_messages (mid : Nat) (q : String) (st : ChatState)
    (e : StreamEvent) (h : e.type = "done") :
    (applyEvent mid q st e).messages =
      updMsg mid (fun m => { m with isLoading := false }) st.messages := by
  simp [applyEvent, h]

/-- C5: For every event sequence ending in a `done` event, applied from
any state, the in-flight agent message ends with `isLoading = false`,
and each of the four loading flags set by any event of the sequence is
still true at the end (no transition resets a flag). -/
theorem done_sequence_final_flags (mid : Nat) (q : String) (st : ChatState)
    (evs pre : List StreamEvent) (ed : StreamEvent)
    (hevs : evs = pre ++ [ed]) (hty : ed.type = "done")
    (m : ChatMessage) (hm : m ∈ (evs.foldl (applyEvent mid q) st).messages)
    (hid : m.id = mid) :
    m.isLoading = false ∧
    ((∃ e ∈ evs, (eventFlags e).sql = true) → m.loadingStates.sql = true) ∧
    ((∃ e ∈ evs, (eventFlags e).data = true) → m.loadingStates.data = true) ∧
    ((∃ e ∈ evs, (eventFlags e).analysis = true) →
      m.loadingStates.analysis = true) ∧
    ((∃ e ∈ evs, (eventFlags e).visualization = true) →
      m.loadingStates.visualization = true) := by
  refine ⟨?_, ?_, ?_, ?_, ?_⟩
  · subst hevs
    rw [List.foldl_append, List.foldl_cons, List.foldl_nil] at hm
    rw [applyEvent_done_messages mid q _ ed hty] at hm
    obtain ⟨m', hm', rfl⟩ := List.mem_map.mp hm
    by_cases h' : m'.id = mid
    · rw [if_pos h']
    · rw [if_neg h'] at hid
      exact absurd hid h'
  · rintro ⟨e, he, hset⟩
    exact flag_foldl_set (fun a b hab => hab.1) rfl mid q evs st e he hset m hm hid
  · rintro ⟨e, he, hset⟩
    exact flag_foldl_set (fun a b hab => hab.2.1) rfl mid q evs st e he hset m hm hid
  · rintro ⟨e, he, hset⟩
    exact flag_foldl_set (fun a b hab => hab.2.2.1) rfl mid q evs st e he hset m hm
      hid
  · rintro ⟨e, he, hset⟩
    exact flag_foldl_set (fun a b hab => hab.2.2.2) rfl mid q evs st e he hset m hm
      hid

/-- Witness for C5: the sequence `sql` then `done` leaves the agent
message with `isLoading = false` and the sql flag still true. -/
theorem done_sequence_final_flags_witness :
    sampleFinalMessage.isLoading = false ∧
    ((∃ e ∈ [sampleSqlEvent, sampleDoneEvent], (eventFlags e).sql = true) →
      sampleFinalMessage.loadingStates.sql = true) ∧
    ((∃ e ∈ [sampleSqlEvent, sampleDoneEvent], (eventFlags e).data = true) →
      sampleFinalMessage.loadingStates.data = true) ∧
    ((∃ e ∈ [sampleSqlEvent, sampleDoneEvent], (eventFlags e).analysis = true) →
      sampleFinalMessage.loadingStates.analysis = true) ∧
    ((∃ e ∈ [sampleSqlEvent, sampleDoneEvent],
        (eventFlags e).visualization = true) →
      sampleFinalMessage.loadingStates.visualization = true) :=
  done_sequence_final_flags 1 "q"
    ⟨[initialAgentMessage 1 "db" "ts"], true, none⟩
    [sampleSqlEvent, sampleDoneEvent] [sampleSqlEvent] sampleDoneEvent
    rfl rfl sampleFinalMessage (by decide) rfl

/-- C6: Session continuity — after a `session` event carrying
`session_id "abc"` is processed, the next outgoing `/chat` request body
(built from the hook state, with the caller passing only the query and
database) carries `session_id: "abc"`; from a state in which no session
event has ever stored an id, the body carries no `session_id` field. -/
theorem session_continuity (mid : Nat) (q q' db : String) (st : ChatState) :
    (nextRequestBody (applyEvent mid q st (sessionEvent "abc")) q' db).session_id
        = some "abc" ∧
    (∀ st' : ChatState, st'.sessionId = none →
      (nextRequestBody st' q' db).session_id = none) := by
  constructor
  · simp [applyEvent, sessionEvent, jsStrTruthy, nextRequestBody,
      queryAgentRequestBody]
  · intro st' h
    simp [nextRequestBody, queryAgentRequestBody, h, jsStrTruthy]

/-- Witness for C6 at a concrete state. -/
theorem session_continuity_witness :
    (nextRequestBody (applyEvent 1 "q" ⟨[], false, none⟩ (sessionEvent "abc"))
        "next" "sample").session_id = some "abc" ∧
    (nextRequestBody (⟨[], false, none⟩ : ChatState) "next" "sample").session_id
        = none := by
  have h := session_continuity 1 "q" "next" "sample" ⟨[], false, none⟩
  exact ⟨h.1, h.2 ⟨[], false, none⟩ rfl⟩

/-- C10: Submission guard — a whitespace-only query, or a still-loading
previous turn, makes `sendMessage` a complete no-op: the state is
unchanged (no user message, no placeholder appended, `loading`
untouched) and no HTTP request is issued. -/
theorem sendMessage_guard_noop (st : ChatState) (query : String) (now : Nat)
    (db ts : String) (h : jsTrim query.toList = [] ∨ st.loading = true) :
    sendMessageStart st query now db ts = (st, false) := by
  rcases h with h | h
  · have h' : jsTrim query.data = [] := h
    simp [sendMessageStart, h']
  · simp [sendMessageStart, h]

/-- Witness for C10: a whitespace-only query is rejected, and a
non-blank query during loading is rejected. -/
theorem sendMessage_guard_noop_witness :
    sendMessageStart ⟨[], false, some "s"⟩ "  " 7 "db" "ts" =
      (⟨[], false, some "s"⟩, false) ∧
    sendMessageStart ⟨[], true, none⟩ "show tables" 7 "db" "ts" =
      (⟨[], true, none⟩, false) :=
  ⟨sendMessage_guard_noop ⟨[], false, some "s"⟩ "  " 7 "db" "ts"
      (Or.inl (by decide)),
   sendMessage_guard_noop ⟨[], true, none⟩ "show tables" 7 "db" "ts"
      (Or.inr rfl)⟩

/-! ## Chart suitability lemmas -/

/-- C4: Relationship-data suppression — for an aggregate chart type
(bar, pie, line), whenever the first row of the data the check inspects
has at least two string-valued fields and no numeric aggregate-named
field, no chart is rendered; in particular this holds for the
vip→pool example. -/
theorem relationship_data_suppressed (viz : Viz) (data : List Row) (fr : Row)
    (hty : (["bar", "pie", "line"] : List String).contains viz.type = true)
    (hfr : (viz.data.getD data).head? = some fr)
    (hsc : 2 ≤ stringColumnCount fr)
    (hna : hasNumericAggregate fr = false) :
    shouldRender (some viz) data = false := by
  have hrel : isRelationshipData fr = true := by
    simp [isRelationshipData, hsc, hna]
  unfold shouldRender dataVisualization
  by_cases hempty : data.isEmpty
  · simp [hempty]
  · by_cases hnone : viz.type = "none"
    · rw [hnone] at hty
      exact absurd hty (by decide)
    · by_cases hcfg : !jsStrTruthy viz.config.x_column ||
          !jsStrTruthy viz.config.y_column
      · simp [hempty, hnone, hcfg]
      · have hty' : viz.type = "bar" ∨ viz.type = "pie" ∨ viz.type = "line" := by
          simpa using hty
        simp [hempty, hnone, hcfg, hfr, hrel, hty']

/-- Witness for C4: rows `[{vip,pool} × 2]` with descriptor
`{type: bar, x_column: vip, y_column: pool}` render no chart. -/
theorem relationship_data_suppressed_witness :
    shouldRender (some vizC4) rowsC4 = false :=
  relationship_data_suppressed vizC4 rowsC4
    [("vip", .str "v1"), ("pool", .str "p1")]
    (by decide) (by decide) (by decide) (by decide)

lemma lookup_none_of_not_hasKey {row : Row} {k : String}
    (h : rowHasKey row k = false) : List.lookup k row = none := by
  induction row with
  | nil => rfl
  | cons p ps ih =>
    have h' : (p.1 = k : Bool) = false ∧ rowHasKey ps k = false := by
      have := h
      simp only [rowHasKey, List.any_cons, Bool.or_eq_false_iff] at this
      exact this
    have hbeq : (k == p.1) = false := by
      rcases h' with ⟨h1, -⟩
      simp only [decide_eq_false_iff_not] at h1
      simp [Ne.symm h1]
    cases p with
    | mk b c =>
      rw [List.lookup_cons]
      simp only at hbeq
      rw [hbeq]
      exact ih h'.2

lemma rowGet_of_not_hasKey {row : Row} {k : String}
    (h : rowHasKey row k = false) : rowGet row k = CellValue.undefinedVal := by
  unfold rowGet
  rw [lookup_none_of_not_hasKey h]
  rfl

lemma dedup_replicate_one {α : Type _} [DecidableEq α] (a : α) :
    ∀ n, 1 ≤ n → (List.replicate n a).dedup = [a] := by
  intro n
  induction n with
  | zero => intro h; omega
  | succ m ih =>
    intro _
    rcases Nat.eq_zero_or_pos m with rfl | hm
    · simp
    · rw [List.replicate_succ, List.dedup_cons_of_mem
        (by simp [List.mem_replicate]; omega), ih hm]

/-- C3 (counterexample): with six rows keyed `Region`/`size`, all
`Region` values distinct, and a descriptor naming `region` (wrong
case), the spec's suppression condition over the *resolved* x-column
holds (no numeric aggregate, no duplicates in the resolved column,
more than 5 rows — so the claim mandates no chart), yet the component
computes `hasDuplicates` from the raw name (all lookups `undefined`,
hence "duplicates") and renders the chart. -/
theorem dup_categories_resolved_counterexample :
    hasNumericAggregate [("Region", .str "r1"), ("size", .num 1)] = false ∧
    specHasDuplicateCategoriesResolved "region" rowsC3 = false ∧
    5 < rowsC3.length ∧
    hasDuplicateCats rowsC3 "region" = true ∧
    dataVisualization (some vizC3) rowsC3 =
      RenderOutcome.chart "bar" "Region" "size" ∧
    shouldRender (some vizC3) rowsC3 = true := by
  refine ⟨by decide, by decide, by decide, by decide, by decide, by decide⟩

/-- C3 (amended): `hasDuplicateCategories` is computed from the raw
descriptor x-column name, before any column resolution: when that raw
name is a key of no row, every lookup is `undefined`, so with at least
two rows the check reports duplicates and the
no-aggregate/no-duplicate/many-rows suppression can never fire —
regardless of the distinctness of the resolved x-column's values. -/
theorem dup_categories_use_raw_name (viz : Viz) (data : List Row) (fr : Row)
    (hty : (["bar", "pie", "line"] : List String).contains viz.type = true)
    (hne : data.isEmpty = false)
    (hx : jsStrTruthy viz.config.x_column = true)
    (hy : jsStrTruthy viz.config.y_column = true)
    (hfr : (viz.data.getD data).head? = some fr)
    (hrel : isRelationshipData fr = false)
    (habs : ∀ row ∈ viz.data.getD data,
      rowHasKey row (jsOrEmpty viz.config.x_column) = false)
    (hlen : 2 ≤ (viz.data.getD data).length) :
    hasDuplicateCats (viz.data.getD data) (jsOrEmpty viz.config.x_column) = true ∧
    dataVisualization (some viz) data ≠ RenderOutcome.suppressed := by
  have hmap : (viz.data.getD data).map
      (fun row => rowGet row (jsOrEmpty viz.config.x_column)) =
      List.replicate (viz.data.getD data).length CellValue.undefinedVal := by
    rw [List.eq_replicate_iff]
    refine ⟨by simp, ?_⟩
    intro b hb
    obtain ⟨row, hrow, rfl⟩ := List.mem_map.mp hb
    exact rowGet_of_not_hasKey (habs row hrow)
  have hone : (1 : ℕ) ≤ (viz.data.getD data).length := by omega
  have hdup : hasDuplicateCats (viz.data.getD data)
      (jsOrEmpty viz.config.x_column) = true := by
    unfold hasDuplicateCats
    simp only [hmap, dedup_replicate_one CellValue.undefinedVal _ hone,
      List.length_replicate, List.length_singleton, decide_eq_true_eq]
    omega
  refine ⟨hdup, ?_⟩
  have hnone : ¬viz.type = "none" := by
    intro h
    rw [h] at hty
    exact absurd hty (by decide)
  unfold dataVisualization
  simp [hne, hnone, hx, hy, hfr, hrel, hdup]
  split
  · simp
  · split <;> simp

/-- Witness for the amended C3 at the concrete counterexample data. -/
theorem dup_categories_use_raw_name_witness :
    hasDuplicateCats rowsC3 "region" = true ∧
    dataVisualization (some vizC3) rowsC3 ≠ RenderOutcome.suppressed := by
  have h := dup_categories_use_raw_name vizC3 rowsC3
    [("Region", .str "r1"), ("size", .num 1)]
    (by decide) (by decide) (by decide) (by decide) (by decide) (by decide)
    (by decide) (by decide)
  simpa using h
